import Mathlib

/-
Verification of the Gismo "Terrain Generator" component
(src/Gismo_Terrain Generator.py) against its natural-language
specification.

Modelling conventions.
Real-valued quantities are modelled with rationals.  The transcendental
primitives of the Python math module (sin, cos, tan, atan2, sqrt, pi)
are abstracted as an explicit oracle record, so that the control flow
and the exact field arithmetic of the source can be embedded faithfully
and theorems quantify over every possible behaviour of those primitives.
Python float division never divides by zero in the source paths under
study; rational division in Lean is total (x / 0 = 0), which is only
used where the source guards the division or where a theorem quantifies
over oracle outputs.  Geometry-kernel primitives (RhinoCommon) that the
source calls are modelled by their documented contracts, noted at each
definition.
-/

namespace Gismo

/-- Oracle for the transcendental primitives of the Python math module.
Each field stands for the corresponding float routine; piq stands for
math.pi.  The embedding never fixes these, except in concrete witnesses. -/
structure MathOracle where
  sinq : ℚ → ℚ
  cosq : ℚ → ℚ
  tanq : ℚ → ℚ
  atan2q : ℚ → ℚ → ℚ
  sqrtq : ℚ → ℚ
  piq : ℚ

/-- math.radians: degrees to radians. -/
def MathOracle.radians (T : MathOracle) (x : ℚ) : ℚ := x * T.piq / 180

/-- math.degrees: radians to degrees. -/
def MathOracle.degrees (T : MathOracle) (x : ℚ) : ℚ := x * 180 / T.piq

/-- Python float modulo for a positive modulus: x - y * floor (x / y).
Used for the source's normalisation of longitude to -180 .. 180. -/
def pymod (x y : ℚ) : ℚ := x - y * (⌊x / y⌋ : ℚ)

/-- WGS84 equatorial radius in meters (source line 277). -/
def wgs84_a : ℚ := 6378137

/-- WGS84 polar radius in meters, 6356752.314245 (source line 278). -/
def wgs84_b : ℚ := 6356752314245 / 1000000

/-- WGS84 flattening, 0.00335281066474 (source line 279). -/
def wgs84_f : ℚ := 335281066474 / 100000000000000

/-- SRTM latitude coverage bound chosen by distanceBetweenTwoPoints
(source lines 268-274): latitude 60 for a northern-hemisphere center
(latitude1D greater or equal 0), latitude -56 otherwise.  The second
point of the inverse problem is this bound at the center's longitude. -/
def latitude2D (latitude1D : ℚ) : ℚ := if 0 ≤ latitude1D then 60 else -56

/-- The values live after one pass of the Vincenty inverse iteration
(source lines 296-312).  Only longitudeR feeds the next pass; the other
fields record the values the code reads after the loop ends. -/
structure InverseState where
  longitudeR : ℚ
  sinLongitudeR : ℚ
  cosLongitudeR : ℚ
  sinSigma : ℚ
  cosSigma : ℚ
  sigma : ℚ
  cosSqBearingAngleR : ℚ
  cos2SigmaM : ℚ
deriving DecidableEq

/-- The guarded along-track curvature term of the inverse solution
(source lines 305-309): when the squared cosine of the bearing is
exactly zero the term is defined as 0 and the division is not
performed; otherwise the division is performed. -/
def cos2SigmaM_update (cosSigma sinU1 sinU2 cosSqBearingAngleR : ℚ) : ℚ :=
  if cosSqBearingAngleR = 0 then 0
  else cosSigma - 2 * sinU1 * sinU2 / cosSqBearingAngleR

/-- One pass of the inverse-solution loop body (source lines 296-312). -/
def inverseStep (T : MathOracle) (L sinU1 cosU1 sinU2 cosU2 : ℚ)
    (st : InverseState) : InverseState :=
  let sinLongitudeR := T.sinq st.longitudeR
  let cosLongitudeR := T.cosq st.longitudeR
  let sinSqSigma := (cosU2 * sinLongitudeR) * (cosU2 * sinLongitudeR) +
    (cosU1 * sinU2 - sinU1 * cosU2 * cosLongitudeR) *
    (cosU1 * sinU2 - sinU1 * cosU2 * cosLongitudeR)
  let sinSigma := T.sqrtq sinSqSigma
  let cosSigma := sinU1 * sinU2 + cosU1 * cosU2 * cosLongitudeR
  let sigma := T.atan2q sinSigma cosSigma
  let sinBearingAngleR := cosU1 * cosU2 * sinLongitudeR / sinSigma
  let cosSqBearingAngleR := 1 - sinBearingAngleR * sinBearingAngleR
  let cos2SigmaM := cos2SigmaM_update cosSigma sinU1 sinU2 cosSqBearingAngleR
  let C := wgs84_f / 16 * cosSqBearingAngleR * (4 + wgs84_f * (4 - 3 * cosSqBearingAngleR))
  { longitudeR := L + (1 - C) * wgs84_f * sinBearingAngleR *
      (sigma + C * sinSigma * (cos2SigmaM + C * cosSigma * (-1 + 2 * cos2SigmaM * cos2SigmaM)))
    sinLongitudeR := sinLongitudeR
    cosLongitudeR := cosLongitudeR
    sinSigma := sinSigma
    cosSigma := cosSigma
    sigma := sigma
    cosSqBearingAngleR := cosSqBearingAngleR
    cos2SigmaM := cos2SigmaM }

/-- The computation distanceBetweenTwoPoints performs after its loop
(source lines 314-319): the series correction deltaSigma and the
distance in meters, read off the values of the last loop pass. -/
def inverseDistancePost (st : InverseState) : ℚ :=
  let uSq := st.cosSqBearingAngleR * (wgs84_a * wgs84_a - wgs84_b * wgs84_b) / (wgs84_b * wgs84_b)
  let A := 1 + uSq / 16384 * (4096 + uSq * (-768 + uSq * (320 - 175 * uSq)))
  let B := uSq / 1024 * (256 + uSq * (-128 + uSq * (74 - 47 * uSq)))
  let deltaSigma := B * st.sinSigma * (st.cos2SigmaM + B / 4 * (st.cosSigma *
    (-1 + 2 * st.cos2SigmaM * st.cos2SigmaM) - B / 6 * st.cos2SigmaM *
    (-3 + 4 * st.sinSigma * st.sinSigma) * (-3 + 4 * st.cos2SigmaM * st.cos2SigmaM)))
  wgs84_b * A * (st.sigma - deltaSigma)

/-- The distanceM computed by distanceBetweenTwoPoints (source lines
267-319): Vincenty inverse solution from the center to the SRTM
latitude bound at the center's longitude.  The source loop runs exactly
100 passes (for i in range(100), no break). -/
def inverseDistanceM (T : MathOracle) (latitude1D longitude1D : ℚ) : ℚ :=
  let latitude2Dval := latitude2D latitude1D
  let longitude2D := longitude1D
  let latitude1R := T.radians latitude1D
  let latitude2R := T.radians latitude2Dval
  let longitude1R := T.radians longitude1D
  let longitude2R := T.radians longitude2D
  let L := longitude2R - longitude1R
  let tanU1 := (1 - wgs84_f) * T.tanq latitude1R
  let cosU1 := 1 / T.sqrtq (1 + tanU1 * tanU1)
  let sinU1 := tanU1 * cosU1
  let tanU2 := (1 - wgs84_f) * T.tanq latitude2R
  let cosU2 := 1 / T.sqrtq (1 + tanU2 * tanU2)
  let sinU2 := tanU2 * cosU2
  inverseDistancePost ((inverseStep T L sinU1 cosU1 sinU2 cosU2)^[100]
    { longitudeR := L, sinLongitudeR := 0, cosLongitudeR := 0, sinSigma := 0,
      cosSigma := 0, sigma := 0, cosSqBearingAngleR := 0, cos2SigmaM := 0 })

/-- Outcome of distanceBetweenTwoPoints (source lines 333-360).
unsupportedLocation: correctedMaskRadiusM is the string "dummy" and
validVisibilityRadiusM is False (message: location too close to the
SRTM boundary).  radiusTooLarge: correctedMaskRadiusM = int(distanceM)
and validVisibilityRadiusM is False (message asks the caller to
re-request with the corrected radius).  ok: correctedMaskRadiusM is the
requested radius and validVisibilityRadiusM is True. -/
inductive ClampOutcome where
  | unsupportedLocation : ClampOutcome
  | radiusTooLarge : ℤ → ClampOutcome
  | ok : ℚ → ClampOutcome
deriving DecidableEq

/-- validVisibilityRadiusM flag of the outcome (source lines 335, 348, 357). -/
def ClampOutcome.validVisibilityRadiusM : ClampOutcome → Bool
  | ClampOutcome.ok _ => true
  | _ => false

/-- The radius-clamping branch of distanceBetweenTwoPoints as a function
of the computed distanceM (source lines 333-360).  Python int() on the
radiusTooLarge branch truncates toward zero, which equals floor there
because that branch has distanceM at least 200; the source comment at
line 347 states int will always perform the floor. -/
def radiusClampPolicy (distanceM maxVisibilityRadiusM : ℚ) : ClampOutcome :=
  if distanceM < 200 then ClampOutcome.unsupportedLocation
  else if distanceM < maxVisibilityRadiusM then ClampOutcome.radiusTooLarge ⌊distanceM⌋
  else ClampOutcome.ok maxVisibilityRadiusM

/-- distanceBetweenTwoPoints (source lines 262-360): computes the
Vincenty inverse distance to the SRTM bound and applies the clamping
branch to it. -/
def distanceBetweenTwoPoints (T : MathOracle)
    (latitude1D longitude1D maxVisibilityRadiusM : ℚ) : ClampOutcome :=
  let distanceM := inverseDistanceM T latitude1D longitude1D
  if distanceM < 200 then ClampOutcome.unsupportedLocation
  else if distanceM < maxVisibilityRadiusM then ClampOutcome.radiusTooLarge ⌊distanceM⌋
  else ClampOutcome.ok maxVisibilityRadiusM

/-- The correctedMaskRadiusM of an outcome as a rational: none on the
unsupportedLocation failure (the source carries the string "dummy"
there), the integer floor on the radiusTooLarge branch, the requested
radius when valid. -/
def ClampOutcome.correctedOpt : ClampOutcome → Option ℚ
  | ClampOutcome.unsupportedLocation => none
  | ClampOutcome.radiusTooLarge n => some (n : ℚ)
  | ClampOutcome.ok c => some c

/-- The corrected radius returned by the clamper for given center and
requested radius. -/
def correctedRadius (T : MathOracle)
    (latitude1D longitude1D maxVisibilityRadiusM : ℚ) : Option ℚ :=
  (distanceBetweenTwoPoints T latitude1D longitude1D maxVisibilityRadiusM).correctedOpt

/-- Outcome of the radius branch of checkInputData: invalid means the
component rejects the run (validInputData is False and every pipeline
value is set to None), valid carries the working radius
maxVisibilityRadiusM that flows to the clamper, the bounding region and
the raster download. -/
inductive RadiusCheck where
  | invalid : RadiusCheck
  | valid : ℚ → RadiusCheck
deriving DecidableEq

/-- The radius branch of checkInputData (source lines 193-208):
no input gives the working radius 200 (comment: default in meters);
an input in 20 till below 200 is silently raised to 200 (comment:
values less than 150m can download an invalid .tif file); an input
below 20 is rejected; an input above 100000 is rejected; any other
input is kept as the working radius. -/
def checkInputData_radius (radius : Option ℚ) : RadiusCheck :=
  match radius with
  | none => RadiusCheck.valid 200
  | some maxVisibilityRadiusM =>
    if 20 ≤ maxVisibilityRadiusM ∧ maxVisibilityRadiusM < 200 then RadiusCheck.valid 200
    else if maxVisibilityRadiusM < 20 then RadiusCheck.invalid
    else if maxVisibilityRadiusM > 100000 then RadiusCheck.invalid
    else RadiusCheck.valid maxVisibilityRadiusM

/-- Outcome of the north-angle branch of checkInputData. -/
inductive NorthCheck where
  | invalid : NorthCheck
  | valid : NorthCheck
deriving DecidableEq

/-- The north branch of checkInputData for a numeric north input
(source lines 215-225): no input defaults to 0; a number below 0 or
above 360 is rejected with the message asking for a value from 0 to
360; every other number is accepted (360 itself is accepted, and line
232 maps the derived 360 degrees to 0). -/
def checkInputData_north (north : Option ℚ) : NorthCheck :=
  match north with
  | none => NorthCheck.valid
  | some n => if n < 0 ∨ n > 360 then NorthCheck.invalid else NorthCheck.valid

/-- The fixed scale factor of the construction frame: 1 real meter is
0.01 Rhino units (source lines 898, 976, comment: should never be
changed). -/
def scaleFactor : ℚ := 1 / 100

/-- The cutting radius of the footprint clip in scaled local units
(source lines 978-983 of split_createStand_colorTerrain).  It is
computed from the raw component input radius_, not from the working
radius that checkInputData may have raised: below 200 the raw radius is
used as is, otherwise it is multiplied by 0.9 (comment: to avoid the
cutting sphere getting out of the terrain edges). -/
def cuttingRadiusScaled (radius_ unitConversionFactor2 : ℚ) : ℚ :=
  if radius_ < 200 then radius_ / unitConversionFactor2 * scaleFactor
  else radius_ * (9 / 10) / unitConversionFactor2 * scaleFactor

/-- The effective clip radius in the words of the specification:
the radius itself below 200, else the radius times 0.9. -/
def effectiveRadius_asSpecified (radius_ : ℚ) : ℚ :=
  if radius_ < 200 then radius_ else radius_ * (9 / 10)

/-- A point of the local construction frame (Rhino.Geometry.Point3d). -/
structure Point3d where
  x : ℚ
  y : ℚ
  z : ℚ
deriving DecidableEq

/-- Contract of Rhino.Geometry.Ray3d.PointAt: the ray start plus t
times the ray direction. -/
def rayPointAt (rayStart rayDirection : Point3d) (t : ℚ) : Point3d :=
  { x := rayStart.x + t * rayDirection.x
    y := rayStart.y + t * rayDirection.y
    z := rayStart.z + t * rayDirection.z }

/-- The elevated cast origin of createTerrainMeshBrep (source lines
935-937): the world origin 0,0,0 lifted by safeHeightDummy = 10000
divided by unitConversionFactor2, all scaled by the construction scale
factor. -/
def elevatedOrigin (unitConversionFactor2 : ℚ) : Point3d :=
  let safeHeightDummy := 10000 / unitConversionFactor2
  { x := 0, y := 0, z := (0 + safeHeightDummy) * scaleFactor }

/-- The location point of createTerrainMeshBrep (source lines 938-940):
ray.PointAt(rayIntersectParam) for the downward vertical ray from the
elevated origin, where rayIntersectParam is whatever the kernel call
Intersect.Intersection.MeshRay returned.  The kernel contract is that
the parameter is nonnegative when the ray hits the mesh and negative
when there is no intersection; the source applies PointAt without
inspecting the sign. -/
def locationPt (unitConversionFactor2 rayIntersectParam : ℚ) : Point3d :=
  rayPointAt (elevatedOrigin unitConversionFactor2)
    { x := 0, y := 0, z := -1 } rayIntersectParam

/-- The elevation derived from the location point (source line 942),
before the final rounding to 2 decimals of line 943. -/
def elevationM_unrounded (unitConversionFactor2 rayIntersectParam : ℚ) : ℚ :=
  (locationPt unitConversionFactor2 rayIntersectParam).z / scaleFactor

/-- The location point in the words of the specification: the
intersection of the downward vertical ray with the mesh when one
exists (the kernel signals a hit with a nonnegative parameter), and no
point at all (failure, OriginOutsideTerrain) when no intersection
exists. -/
def locationPoint_asSpecified (unitConversionFactor2 rayIntersectParam : ℚ) : Option Point3d :=
  if 0 ≤ rayIntersectParam then
    some (rayPointAt (elevatedOrigin unitConversionFactor2)
      { x := 0, y := 0, z := -1 } rayIntersectParam)
  else none

/-- The lexicographic tuple order used by the Python list sort at
source line 1024: distance first, fragment index second. -/
def tupleLe (p q : ℚ × ℕ) : Bool :=
  decide (p.1 < q.1 ∨ (p.1 = q.1 ∧ p.2 ≤ q.2))

/-- tupleDistanceToLocationPt (source line 1023): the list of pairs of
the centroid-to-locationPt distance of each split fragment with its
enumeration index.  The kernel computations (AreaMassProperties
centroid and the 3-D distance) are abstracted as the function dist. -/
def tupleDistanceToLocationPt {α : Type} (dist : α → ℚ) (frags : List α) : List (ℚ × ℕ) :=
  frags.enum.map (fun p => (dist p.2, p.1))

/-- The fragment the split keeps (source lines 1023-1027, 1030): sort
the distance-index tuples lexicographically and take the fragment at
the index carried by the first tuple. -/
def selectedFragment {α : Type} (dist : α → ℚ) (frags : List α) : Option α :=
  match ((tupleDistanceToLocationPt dist frags).mergeSort tupleLe).head? with
  | none => none
  | some m => frags[m.2]?

/-- Contract of the external kernel curve division used at source line
1116 (Curve.DivideByCount with includeEnds False) on the NURBS form of
the vertical bounding-box edge.  Line.ToNurbsCurve is arc-length
parameterized, so its domain is 0 to edgeLength; dividing it into
segmentCount equal segments returns the domain parameters of the
interior division points, both curve ends excluded - the
segmentCount - 1 values i * edgeLength / segmentCount for
i = 1 .. segmentCount - 1. -/
def divideByCountNoEnds (edgeLength : ℚ) (segmentCount : ℕ) : List ℚ :=
  (List.range (segmentCount - 1)).map
    (fun i => ((i + 1 : ℕ) : ℚ) * edgeLength / (segmentCount : ℚ))

/-- The plane heights of createElevationContours (source lines
1112-1118): the vertical bounding-box edge runs from the extent minimum
zmin to the extent maximum zmax (edge length zmax - zmin), the source
divides its NURBS form - obtaining arc-length domain parameters - and
feeds each parameter t to the static Line.PointAt, which is normalized
and maps t to zmin + t * (zmax - zmin); each resulting point becomes
the origin of a horizontal plane with normal 0,0,1.  The domain
parameters are thus scaled by the edge length a second time, so the
heights match evenly spaced interior heights only for an edge of
length 1. -/
def elevationContourPlaneZs (zmin zmax : ℚ) (numOfContours : ℕ) : List ℚ :=
  (divideByCountNoEnds (zmax - zmin) numOfContours).map
    (fun t => zmin + t * (zmax - zmin))

/-- The contour-plane heights actually produced by the pipeline
(title_scalingRotating, source lines 1144-1149): createElevationContours
is only called when the contour count is positive, otherwise the
contour result is the empty list and no planes are computed. -/
def contourPlanes (zmin zmax : ℚ) (numOfContours : ℕ) : List ℚ :=
  if 0 < numOfContours then elevationContourPlaneZs zmin zmax numOfContours else []

/-- The bearing list of destinationLatLon in degrees (source line 373):
the arguments of math.radians for the four region directions top,
bottom, left, right.  The function takes no bearing input; these are
the only bearings the direct solution is ever run with. -/
def destination_bearingAnglesD : List ℚ := [0, 180, 270, 90]

/-- The state of the direct-solution convergence loop (source lines
390-397). -/
structure DirectState where
  sigma : ℚ
  sigmaPrev : ℚ
  cos2sigmaM : ℚ
  sinsigma : ℚ
  cossigma : ℚ
deriving DecidableEq

/-- The while loop of the direct solution (source lines 391-397),
run with explicit fuel: while the last two sigma estimates differ by
more than 1e-12 the loop recomputes the angular-distance correction.
The source loop has no iteration cap; fuel bounds the embedding. -/
def directLoop (T : MathOracle) (B base sigma1 : ℚ) : ℕ → DirectState → DirectState
  | 0, st => st
  | Nat.succ fuel, st =>
    if |st.sigma - st.sigmaPrev| > 1 / 1000000000000 then
      let cos2sigmaM := T.cosq (2 * sigma1 + st.sigma)
      let sinsigma := T.sinq st.sigma
      let cossigma := T.cosq st.sigma
      let deltaSigma := B * sinsigma * (cos2sigmaM + B / 4 * (cossigma *
        (-1 + 2 * cos2sigmaM * cos2sigmaM) - B / 6 * cos2sigmaM *
        (-3 + 4 * sinsigma * sinsigma) * (-3 + 4 * cos2sigmaM * cos2sigmaM)))
      directLoop T B base sigma1 fuel
        { sigma := base + deltaSigma, sigmaPrev := st.sigma,
          cos2sigmaM := cos2sigmaM, sinsigma := sinsigma, cossigma := cossigma }
    else st

/-- The per-bearing body of destinationLatLon (source lines 375-414):
the Vincenty direct solution from the center along one bearing angle
(in radians) for the given distance, returning the destination latitude
and longitude in degrees.  The body performs no validation of the
bearing: every bearing value flows straight into the arithmetic. -/
def destinationPoint (T : MathOracle) (fuel : ℕ)
    (latitude1D longitude1D maxVisibilityRadiusM bearingAngle1R : ℚ) : ℚ × ℚ :=
  let latitude1R := T.radians latitude1D
  let longitude1R := T.radians longitude1D
  let sinbearingAngle1R := T.sinq bearingAngle1R
  let cosbearingAngle1R := T.cosq bearingAngle1R
  let tanU1 := (1 - wgs84_f) * T.tanq latitude1R
  let cosU1 := 1 / T.sqrtq (1 + tanU1 * tanU1)
  let sinU1 := tanU1 * cosU1
  let sigma1 := T.atan2q tanU1 cosbearingAngle1R
  let sinBearingAngle1R := cosU1 * sinbearingAngle1R
  let cosSqBearingAngle1R := 1 - sinBearingAngle1R * sinBearingAngle1R
  let uSq := cosSqBearingAngle1R * (wgs84_a * wgs84_a - wgs84_b * wgs84_b) / (wgs84_b * wgs84_b)
  let A := 1 + uSq / 16384 * (4096 + uSq * (-768 + uSq * (320 - 175 * uSq)))
  let B := uSq / 1024 * (256 + uSq * (-128 + uSq * (74 - 47 * uSq)))
  let base := maxVisibilityRadiusM / (wgs84_b * A)
  let st := directLoop T B base sigma1 fuel
    { sigma := base, sigmaPrev := 0, cos2sigmaM := 0, sinsigma := 0, cossigma := 0 }
  let tmp := sinU1 * st.sinsigma - cosU1 * st.cossigma * cosbearingAngle1R
  let latitude2R := T.atan2q (sinU1 * st.cossigma + cosU1 * st.sinsigma * cosbearingAngle1R)
    ((1 - wgs84_f) * T.sqrtq (sinBearingAngle1R * sinBearingAngle1R + tmp * tmp))
  let longitudeR := T.atan2q (st.sinsigma * sinbearingAngle1R)
    (cosU1 * st.cossigma - sinU1 * st.sinsigma * cosbearingAngle1R)
  let C := wgs84_f / 16 * cosSqBearingAngle1R * (4 + wgs84_f * (4 - 3 * cosSqBearingAngle1R))
  let L := longitudeR - (1 - C) * wgs84_f * sinBearingAngle1R *
    (st.sigma + C * st.sinsigma * (st.cos2sigmaM + C * st.cossigma *
      (-1 + 2 * st.cos2sigmaM * st.cos2sigmaM)))
  let longitude2R := pymod (longitude1R + L + 3 * T.piq) (2 * T.piq) - T.piq
  (T.degrees latitude2R, T.degrees longitude2R)

/-- destinationLatLon (source lines 363-419): the direct solution run
for each of the four fixed bearings, collecting latitude and longitude
of each destination into one list of eight values. -/
def destinationLatLon (T : MathOracle) (fuel : ℕ)
    (latitude1D longitude1D maxVisibilityRadiusM : ℚ) : List ℚ :=
  (destination_bearingAnglesD.map T.radians).flatMap (fun bearingAngle1R =>
    let p := destinationPoint T fuel latitude1D longitude1D maxVisibilityRadiusM bearingAngle1R
    [p.1, p.2])

/-- A concrete oracle for witnesses: sin constantly 1, cos constantly
0, tan constantly 0, atan2 constantly c, sqrt constantly 1, pi 0.
Under it the inverse solution computes the distance wgs84_b * c, so
choosing c exercises each branch of the radius clamper on concrete
inputs. -/
def constOracle (c : ℚ) : MathOracle :=
  { sinq := fun _ => 1, cosq := fun _ => 0, tanq := fun _ => 0,
    atan2q := fun _ _ => c, sqrtq := fun _ => 1, piq := 0 }

lemma constOracle_sinq (c x : ℚ) : (constOracle c).sinq x = 1 := rfl

lemma constOracle_cosq (c x : ℚ) : (constOracle c).cosq x = 0 := rfl

lemma constOracle_tanq (c x : ℚ) : (constOracle c).tanq x = 0 := rfl

lemma constOracle_atan2q (c x y : ℚ) : (constOracle c).atan2q x y = c := rfl

lemma constOracle_sqrtq (c x : ℚ) : (constOracle c).sqrtq x = 1 := rfl

lemma constOracle_piq (c : ℚ) : (constOracle c).piq = 0 := rfl

lemma inverseStep_constOracle (c : ℚ) (st : InverseState) :
    inverseStep (constOracle c) 0 0 1 0 1 st =
      { longitudeR := wgs84_f * c, sinLongitudeR := 1, cosLongitudeR := 0,
        sinSigma := 1, cosSigma := 0, sigma := c,
        cosSqBearingAngleR := 0, cos2SigmaM := 0 } := by
  simp only [inverseStep, constOracle, cos2SigmaM_update]
  norm_num

lemma iterate_inverseStep_constOracle (c : ℚ) :
    (inverseStep (constOracle c) 0 0 1 0 1)^[100]
      { longitudeR := 0, sinLongitudeR := 0, cosLongitudeR := 0, sinSigma := 0,
        cosSigma := 0, sigma := 0, cosSqBearingAngleR := 0, cos2SigmaM := 0 } =
      { longitudeR := wgs84_f * c, sinLongitudeR := 1, cosLongitudeR := 0,
        sinSigma := 1, cosSigma := 0, sigma := c,
        cosSqBearingAngleR := 0, cos2SigmaM := 0 } := by
  rw [show (100 : ℕ) = Nat.succ 99 from rfl, Function.iterate_succ_apply,
    inverseStep_constOracle]
  exact Function.iterate_fixed (inverseStep_constOracle c _) 99

lemma inverseDistancePost_constState (c : ℚ) :
    inverseDistancePost
      { longitudeR := wgs84_f * c, sinLongitudeR := 1, cosLongitudeR := 0,
        sinSigma := 1, cosSigma := 0, sigma := c,
        cosSqBearingAngleR := 0, cos2SigmaM := 0 } = wgs84_b * c := by
  simp only [inverseDistancePost]
  norm_num

lemma inverseDistanceM_constOracle (c latitude1D longitude1D : ℚ) :
    inverseDistanceM (constOracle c) latitude1D longitude1D = wgs84_b * c := by
  unfold inverseDistanceM
  norm_num [MathOracle.radians, constOracle_sinq, constOracle_cosq, constOracle_tanq,
    constOracle_atan2q, constOracle_sqrtq, constOracle_piq, -Function.iterate_succ]
  rw [iterate_inverseStep_constOracle]
  exact inverseDistancePost_constState c

lemma correctedRadius_eq (T : MathOracle) (lat lon r : ℚ) :
    correctedRadius T lat lon r =
      (if inverseDistanceM T lat lon < 200 then none
       else if inverseDistanceM T lat lon < r then some ((⌊inverseDistanceM T lat lon⌋ : ℤ) : ℚ)
       else some r) := by
  have he : distanceBetweenTwoPoints T lat lon r =
      radiusClampPolicy (inverseDistanceM T lat lon) r := rfl
  unfold correctedRadius
  rw [he]
  unfold radiusClampPolicy
  by_cases h1 : inverseDistanceM T lat lon < 200
  · rw [if_pos h1, if_pos h1]
    rfl
  · rw [if_neg h1, if_neg h1]
    by_cases h2 : inverseDistanceM T lat lon < r
    · rw [if_pos h2, if_pos h2]
      rfl
    · rw [if_neg h2, if_neg h2]
      rfl

/-- C1: the radius clamper computes the geodesic distance from the
center to the nearer latitude coverage bound (latitude 60 when the
center latitude is at least 0, else latitude -56, at the center's
longitude, embedded inside inverseDistanceM via latitude2D) and then:
distance below 200 m fails (unsupportedLocation, the caller is told to
use another data source); distance at least 200 m but below the
requested radius is not valid and returns the corrected radius
floor(distance) in integer meters with the radiusTooLarge signal;
distance at least the requested radius is valid and the corrected
radius equals the requested radius.  Stated for every oracle, so it
covers every possible behaviour of the float trigonometry. -/
theorem C1_radiusClamper_policy (T : MathOracle)
    (latitude1D longitude1D maxVisibilityRadiusM : ℚ) :
    (inverseDistanceM T latitude1D longitude1D < 200 →
      distanceBetweenTwoPoints T latitude1D longitude1D maxVisibilityRadiusM =
        ClampOutcome.unsupportedLocation) ∧
    (200 ≤ inverseDistanceM T latitude1D longitude1D →
      inverseDistanceM T latitude1D longitude1D < maxVisibilityRadiusM →
      distanceBetweenTwoPoints T latitude1D longitude1D maxVisibilityRadiusM =
        ClampOutcome.radiusTooLarge ⌊inverseDistanceM T latitude1D longitude1D⌋ ∧
      (distanceBetweenTwoPoints T latitude1D longitude1D
        maxVisibilityRadiusM).validVisibilityRadiusM = false) ∧
    (200 ≤ inverseDistanceM T latitude1D longitude1D →
      maxVisibilityRadiusM ≤ inverseDistanceM T latitude1D longitude1D →
      distanceBetweenTwoPoints T latitude1D longitude1D maxVisibilityRadiusM =
        ClampOutcome.ok maxVisibilityRadiusM ∧
      (distanceBetweenTwoPoints T latitude1D longitude1D
        maxVisibilityRadiusM).validVisibilityRadiusM = true) ∧
    latitude2D latitude1D = (if 0 ≤ latitude1D then 60 else -56) := by
  have he : distanceBetweenTwoPoints T latitude1D longitude1D maxVisibilityRadiusM =
      radiusClampPolicy (inverseDistanceM T latitude1D longitude1D)
        maxVisibilityRadiusM := rfl
  refine ⟨fun h => ?_, fun h1 h2 => ?_, fun h1 h2 => ?_, rfl⟩
  · rw [he]
    unfold radiusClampPolicy
    rw [if_pos h]
  · have e : distanceBetweenTwoPoints T latitude1D longitude1D maxVisibilityRadiusM =
        ClampOutcome.radiusTooLarge ⌊inverseDistanceM T latitude1D longitude1D⌋ := by
      rw [he]
      unfold radiusClampPolicy
      rw [if_neg (not_lt.2 h1), if_pos h2]
    exact ⟨e, by rw [e]; rfl⟩
  · have e : distanceBetweenTwoPoints T latitude1D longitude1D maxVisibilityRadiusM =
        ClampOutcome.ok maxVisibilityRadiusM := by
      rw [he]
      unfold radiusClampPolicy
      rw [if_neg (not_lt.2 h1), if_neg (not_lt.2 h2)]
    exact ⟨e, by rw [e]; rfl⟩

/-- Witness for C1: concrete oracles realizing each branch.  Under
constOracle c the inverse solution computes the distance wgs84_b * c:
c = 0 gives distance 0 (below 200), c = 1/10000 gives distance
635.6752314245 (at least 200, floor 635). -/
theorem C1_radiusClamper_policy_witness :
    distanceBetweenTwoPoints (constOracle 0) 45 15 100 = ClampOutcome.unsupportedLocation ∧
    distanceBetweenTwoPoints (constOracle (1/10000)) 45 15 1000 =
      ClampOutcome.radiusTooLarge 635 ∧
    distanceBetweenTwoPoints (constOracle (1/10000)) 45 15 500 = ClampOutcome.ok 500 := by
  have hz := inverseDistanceM_constOracle 0 45 15
  have ha := inverseDistanceM_constOracle (1/10000) 45 15
  refine ⟨(C1_radiusClamper_policy (constOracle 0) 45 15 100).1 ?_, ?_, ?_⟩
  · rw [hz]; norm_num [wgs84_b]
  · have h := (C1_radiusClamper_policy (constOracle (1/10000)) 45 15 1000).2.1
      (by rw [ha]; norm_num [wgs84_b]) (by rw [ha]; norm_num [wgs84_b])
    rw [ha] at h
    have hfl : (⌊wgs84_b * (1/10000)⌋ : ℤ) = 635 := by norm_num [wgs84_b]
    rw [hfl] at h
    exact h.1
  · exact ((C1_radiusClamper_policy (constOracle (1/10000)) 45 15 500).2.2.1
      (by rw [ha]; norm_num [wgs84_b]) (by rw [ha]; norm_num [wgs84_b])).1

/-- C2 counterexample: when no radius is supplied, checkInputData sets
the working radius to 200 meters, not to the 100 meters the claim (and
the component docstring at source line 46) states. -/
theorem C2_default_radius_counterexample :
    checkInputData_radius none = RadiusCheck.valid 200 ∧
    checkInputData_radius none ≠ RadiusCheck.valid 100 := by
  refine ⟨rfl, ?_⟩
  intro h
  rw [show checkInputData_radius none = RadiusCheck.valid 200 from rfl] at h
  simp only [RadiusCheck.valid.injEq] at h
  norm_num at h

/-- C2 amended: when no radius is supplied the pipeline uses a default
working radius of 200 meters (not 100; 192-196 of the source raise
everything below 200 to 200 anyway), and any supplied radius outside
the range 20 to 100000 meters is invalid rather than processed. -/
theorem C2_radius_contract (r : ℚ) :
    checkInputData_radius none = RadiusCheck.valid 200 ∧
    (r < 20 → checkInputData_radius (some r) = RadiusCheck.invalid) ∧
    (r > 100000 → checkInputData_radius (some r) = RadiusCheck.invalid) := by
  refine ⟨rfl, fun h => ?_, fun h => ?_⟩
  · have h1 : ¬ (20 ≤ r ∧ r < 200) := by rintro ⟨hc, -⟩; linarith
    simp only [checkInputData_radius]
    rw [if_neg h1, if_pos h]
  · have h1 : ¬ (20 ≤ r ∧ r < 200) := by rintro ⟨-, hc⟩; linarith
    have h2 : ¬ r < 20 := by linarith
    simp only [checkInputData_radius]
    rw [if_neg h1, if_neg h2, if_pos h]

/-- Witness for C2: a radius of 10 and a radius of 200000 are both
rejected. -/
theorem C2_radius_contract_witness :
    checkInputData_radius (some 10) = RadiusCheck.invalid ∧
    checkInputData_radius (some 200000) = RadiusCheck.invalid :=
  ⟨(C2_radius_contract 10).2.1 (by norm_num),
   (C2_radius_contract 200000).2.2 (by norm_num)⟩

/-- C3: for every supplied radius r with 20 at most r below 200 (and
when no radius is supplied) checkInputData silently raises the working
radius - the value that flows to the clamper, the bounding region and
the raster download - to 200 meters, while the footprint clip of
split_createStand_colorTerrain still computes its cutting radius from
the raw input r; among those low radii only values below 20 are
rejected. -/
theorem C3_silent_radius_bump (r unitConversionFactor2 : ℚ) :
    (20 ≤ r → r < 200 →
      checkInputData_radius (some r) = RadiusCheck.valid 200 ∧
      cuttingRadiusScaled r unitConversionFactor2 =
        r / unitConversionFactor2 * scaleFactor) ∧
    checkInputData_radius none = RadiusCheck.valid 200 ∧
    (r < 20 → checkInputData_radius (some r) = RadiusCheck.invalid) := by
  refine ⟨fun h1 h2 => ⟨?_, ?_⟩, rfl, fun h => ?_⟩
  · simp only [checkInputData_radius]
    rw [if_pos ⟨h1, h2⟩]
  · simp only [cuttingRadiusScaled]
    rw [if_pos h2]
  · have hc : ¬ (20 ≤ r ∧ r < 200) := by rintro ⟨hc, -⟩; linarith
    simp only [checkInputData_radius]
    rw [if_neg hc, if_pos h]

/-- Witness for C3: a supplied radius of 100 is accepted with working
radius 200 while the clip-cutting radius stays at 100 scaled units
(with unitConversionFactor2 = 1 this is 100 * 0.01 = 1 local unit). -/
theorem C3_silent_radius_bump_witness :
    checkInputData_radius (some 100) = RadiusCheck.valid 200 ∧
    cuttingRadiusScaled 100 1 = 1 := by
  have h := (C3_silent_radius_bump 100 1).1 (by norm_num) (by norm_num)
  refine ⟨h.1, ?_⟩
  rw [h.2]
  norm_num [scaleFactor]

/-- C4 counterexample: when the kernel MeshRay call reports no
intersection (a negative ray parameter, here -1, with
unitConversionFactor2 = 1), the claim - formalized by
locationPoint_asSpecified - requires the operation to fail and produce
no location point, but the code still produces the location point
(0, 0, 101), one unit above the elevated cast origin, and the elevation
10100 derived from it. -/
theorem C4_originOutsideTerrain_counterexample :
    locationPoint_asSpecified 1 (-1) = none ∧
    locationPt 1 (-1) = { x := 0, y := 0, z := 101 } ∧
    elevationM_unrounded 1 (-1) = 10100 := by
  norm_num [locationPoint_asSpecified, locationPt, rayPointAt, elevatedOrigin,
    elevationM_unrounded, scaleFactor]

/-- C4 amended: the location point is ray.PointAt(t) for the downward
vertical ray cast from the point far above the world origin, where t is
the MeshRay kernel result.  When an intersection exists (t at least 0)
this is the claimed intersection point; when no intersection exists
(negative t) the operation does not fail: it still produces a location
point, strictly above the cast origin, and an elevation from it. -/
theorem C4_locationPoint_behavior (unitConversionFactor2 t : ℚ) :
    (0 ≤ t → locationPoint_asSpecified unitConversionFactor2 t =
      some (locationPt unitConversionFactor2 t)) ∧
    (t < 0 → locationPoint_asSpecified unitConversionFactor2 t = none ∧
      locationPt unitConversionFactor2 t =
        { x := 0, y := 0,
          z := (0 + 10000 / unitConversionFactor2) * scaleFactor - t } ∧
      (elevatedOrigin unitConversionFactor2).z < (locationPt unitConversionFactor2 t).z) := by
  refine ⟨fun h => ?_, fun h => ⟨?_, ?_, ?_⟩⟩
  · simp only [locationPoint_asSpecified, locationPt]
    rw [if_pos h]
  · simp only [locationPoint_asSpecified]
    rw [if_neg (not_le.2 h)]
  · simp only [locationPt, rayPointAt, elevatedOrigin]
    norm_num
    ring
  · simp only [locationPt, rayPointAt, elevatedOrigin]
    norm_num
    linarith

/-- Witness for C4: with unitConversionFactor2 = 1, parameter 3 (a hit)
gives the intersection point, parameter -2 (no intersection) gives the
failure of the specified version. -/
theorem C4_locationPoint_behavior_witness :
    locationPoint_asSpecified 1 3 = some (locationPt 1 3) ∧
    locationPoint_asSpecified 1 (-2) = none :=
  ⟨(C4_locationPoint_behavior 1 3).1 (by norm_num),
   ((C4_locationPoint_behavior 1 (-2)).2 (by norm_num)).1⟩

/-- C6: the footprint clipping solid uses, in scaled local units, the
effective radius equal to the radius itself when the radius is below
200, and radius * 0.9 when the radius is at least 200. -/
theorem C6_effective_clip_radius (r unitConversionFactor2 : ℚ) :
    cuttingRadiusScaled r unitConversionFactor2 =
      effectiveRadius_asSpecified r / unitConversionFactor2 * scaleFactor ∧
    (r < 200 → effectiveRadius_asSpecified r = r) ∧
    (200 ≤ r → effectiveRadius_asSpecified r = r * (9 / 10)) := by
  refine ⟨?_, fun h => ?_, fun h => ?_⟩
  · by_cases h : r < 200 <;>
      simp [cuttingRadiusScaled, effectiveRadius_asSpecified, h]
  · simp [effectiveRadius_asSpecified, h]
  · simp [effectiveRadius_asSpecified, not_lt.2 h]

/-- Witness for C6: a radius of 100 keeps its value, a radius of 300 is
reduced to 270. -/
theorem C6_effective_clip_radius_witness :
    effectiveRadius_asSpecified 100 = 100 ∧
    effectiveRadius_asSpecified 300 = 270 := by
  have h1 := (C6_effective_clip_radius 100 1).2.1 (by norm_num)
  have h2 := (C6_effective_clip_radius 300 1).2.2 (by norm_num)
  rw [h2]
  exact ⟨h1, by norm_num⟩

/-- C7 counterexample: monotonicity of the corrected radius fails for
fractional requested radii.  Under an oracle for which the computed
boundary distance is 250.5 m, requesting 250.3 m returns corrected
250.3 (valid), but requesting the larger 251 m returns corrected
floor(250.5) = 250, which is smaller. -/
theorem C7_monotonicity_counterexample :
    correctedRadius (constOracle (501 / (2 * wgs84_b))) 45 15 (2503/10) =
      some (2503/10) ∧
    correctedRadius (constOracle (501 / (2 * wgs84_b))) 45 15 251 = some 250 ∧
    (2503/10 : ℚ) < 251 ∧ (250 : ℚ) < 2503/10 := by
  have hd := inverseDistanceM_constOracle (501 / (2 * wgs84_b)) 45 15
  have hb : wgs84_b * (501 / (2 * wgs84_b)) = 501/2 := by
    rw [wgs84_b]; norm_num
  rw [hb] at hd
  refine ⟨?_, ?_, by norm_num, by norm_num⟩
  · rw [correctedRadius_eq, hd]
    norm_num
  · rw [correctedRadius_eq, hd]
    norm_num

/-- C7 amended: the corrected radius never exceeds the requested
radius, and for a fixed center it is monotonically non-decreasing in
the requested radius whenever the requested radii are whole-meter
(integer) values; for fractional requested radii monotonicity can fail
(see the counterexample). -/
theorem C7_clamp_monotonicity (T : MathOracle) (latitude1D longitude1D : ℚ) :
    (∀ r c : ℚ, correctedRadius T latitude1D longitude1D r = some c → c ≤ r) ∧
    (∀ m n : ℤ, (m : ℚ) ≤ (n : ℚ) →
      ∀ c1 c2 : ℚ, correctedRadius T latitude1D longitude1D (m : ℚ) = some c1 →
        correctedRadius T latitude1D longitude1D (n : ℚ) = some c2 → c1 ≤ c2) := by
  constructor
  · intro r c h
    rw [correctedRadius_eq] at h
    by_cases h1 : inverseDistanceM T latitude1D longitude1D < 200
    · rw [if_pos h1] at h
      exact Option.noConfusion h
    · rw [if_neg h1] at h
      by_cases h2 : inverseDistanceM T latitude1D longitude1D < r
      · rw [if_pos h2] at h
        rw [← Option.some.inj h]
        exact le_of_lt (lt_of_le_of_lt (Int.floor_le _) h2)
      · rw [if_neg h2] at h
        exact le_of_eq (Option.some.inj h).symm
  · intro m n hmn c1 c2 h1 h2
    rw [correctedRadius_eq] at h1 h2
    by_cases hd : inverseDistanceM T latitude1D longitude1D < 200
    · rw [if_pos hd] at h1
      exact Option.noConfusion h1
    · rw [if_neg hd] at h1
      rw [if_neg hd] at h2
      by_cases hm : inverseDistanceM T latitude1D longitude1D < (m : ℚ)
      · have hn : inverseDistanceM T latitude1D longitude1D < (n : ℚ) :=
          lt_of_lt_of_le hm hmn
        rw [if_pos hm] at h1
        rw [if_pos hn] at h2
        rw [← Option.some.inj h1, ← Option.some.inj h2]
      · rw [if_neg hm] at h1
        by_cases hn : inverseDistanceM T latitude1D longitude1D < (n : ℚ)
        · rw [if_pos hn] at h2
          rw [← Option.some.inj h1, ← Option.some.inj h2]
          exact_mod_cast Int.le_floor.2 (not_lt.1 hm)
        · rw [if_neg hn] at h2
          rw [← Option.some.inj h1, ← Option.some.inj h2]
          exact hmn

/-- Witness for C7: under the oracle with boundary distance 250.5,
requesting 300 gives corrected 250 which is at most 300, and raising an
integer request from 230 to 300 raises the corrected radius from 230 to
250. -/
theorem C7_clamp_monotonicity_witness :
    correctedRadius (constOracle (501 / (2 * wgs84_b))) 45 15 300 = some 250 ∧
    (250 : ℚ) ≤ 300 ∧ (230 : ℚ) ≤ 250 := by
  have hd := inverseDistanceM_constOracle (501 / (2 * wgs84_b)) 45 15
  have hb : wgs84_b * (501 / (2 * wgs84_b)) = 501/2 := by
    rw [wgs84_b]; norm_num
  rw [hb] at hd
  have e300 : correctedRadius (constOracle (501 / (2 * wgs84_b))) 45 15 300 = some 250 := by
    rw [correctedRadius_eq, hd]; norm_num
  have e230 : correctedRadius (constOracle (501 / (2 * wgs84_b))) 45 15 230 = some 230 := by
    rw [correctedRadius_eq, hd]; norm_num
  refine ⟨e300, (C7_clamp_monotonicity (constOracle (501 / (2 * wgs84_b))) 45 15).1
    300 250 e300, ?_⟩
  exact (C7_clamp_monotonicity (constOracle (501 / (2 * wgs84_b))) 45 15).2
    230 300 (by norm_num) 230 250 (by exact_mod_cast e230) (by exact_mod_cast e300)

/-- C9: when the computed squared cosine of the bearing is exactly
zero, the along-track curvature term is defined as 0 and the division
is not performed (rational division is total here, so the absence of a
division error is expressed by the guard defining the value without the
dividing branch); otherwise the division is performed.  Moreover the
inverse computation completes and returns a definite distance under an
oracle that drives the degenerate branch on every pass. -/
theorem C9_equatorial_degenerate_guard (cosSigma sinU1 sinU2 q : ℚ) :
    cos2SigmaM_update cosSigma sinU1 sinU2 0 = 0 ∧
    (q ≠ 0 → cos2SigmaM_update cosSigma sinU1 sinU2 q =
      cosSigma - 2 * sinU1 * sinU2 / q) ∧
    (∀ c : ℚ, inverseDistanceM (constOracle c) 0 0 = wgs84_b * c) := by
  refine ⟨?_, fun h => ?_, fun c => inverseDistanceM_constOracle c 0 0⟩
  · simp [cos2SigmaM_update]
  · simp [cos2SigmaM_update, h]

/-- Witness for C9: the non-degenerate branch at denominator 2 and the
degenerate branch at denominator 0. -/
theorem C9_equatorial_degenerate_guard_witness :
    cos2SigmaM_update 1 1 1 2 = 0 ∧ cos2SigmaM_update 0 0 0 0 = 0 := by
  have h := (C9_equatorial_degenerate_guard 1 1 1 2).2.1 (by norm_num)
  exact ⟨by rw [h]; norm_num, (C9_equatorial_degenerate_guard 0 0 0 2).1⟩

/-- C10 counterexample: the claim requires both geodesic operations to
fail with InvalidAngle on a bearing outside 0 to 360 (excluded), but
the per-bearing direct computation produces a plain destination value
at bearing 400 (no failure outcome exists in the code, which performs
no bearing validation), and the only angle validation in the component,
the checkInputData north check, accepts 360 even though 360 is outside
the claimed half-open range. -/
theorem C10_invalidAngle_counterexample :
    destinationPoint (constOracle 0) 20 45 15 500 400 = (0, 0) ∧
    ¬ ((0 : ℚ) ≤ 400 ∧ (400 : ℚ) < 360) ∧
    checkInputData_north (some 360) = NorthCheck.valid ∧
    ¬ ((0 : ℚ) ≤ 360 ∧ (360 : ℚ) < 360) := by
  refine ⟨?_, by norm_num, ?_, by norm_num⟩
  · simp only [destinationPoint, MathOracle.degrees, constOracle_piq, constOracle_atan2q]
    norm_num
  · simp [checkInputData_north]

/-- C10 amended: neither geodesic operation takes or validates a
bearing and no InvalidAngle failure exists.  The direct solver iterates
over the fixed internal bearing list 0, 180, 270, 90 (all inside 0 to
360), the inverse operation's outcomes are exactly those of the radius
clamp policy (unsupportedLocation, radiusTooLarge, ok - never an angle
error), and the only angle validated anywhere is the north input, which
checkInputData rejects below 0 or above 360 and accepts otherwise. -/
theorem C10_no_invalidAngle_validation (n : ℚ) :
    (∀ bd ∈ destination_bearingAnglesD, 0 ≤ bd ∧ bd < 360) ∧
    (n < 0 ∨ n > 360 → checkInputData_north (some n) = NorthCheck.invalid) ∧
    (0 ≤ n → n ≤ 360 → checkInputData_north (some n) = NorthCheck.valid) ∧
    (∀ T latitude1D longitude1D r, distanceBetweenTwoPoints T latitude1D longitude1D r =
      radiusClampPolicy (inverseDistanceM T latitude1D longitude1D) r) := by
  refine ⟨?_, fun h => ?_, fun h1 h2 => ?_, fun _ _ _ _ => rfl⟩
  · intro bd hbd
    fin_cases hbd <;> norm_num
  · simp only [checkInputData_north]
    rw [if_pos h]
  · have hc : ¬ (n < 0 ∨ n > 360) := by
      push_neg
      exact ⟨h1, h2⟩
    simp only [checkInputData_north]
    rw [if_neg hc]

/-- Witness for C10: north 370 is rejected, north 360 is accepted. -/
theorem C10_no_invalidAngle_validation_witness :
    checkInputData_north (some 370) = NorthCheck.invalid ∧
    checkInputData_north (some 360) = NorthCheck.valid :=
  ⟨(C10_no_invalidAngle_validation 370).2.1 (Or.inr (by norm_num)),
   (C10_no_invalidAngle_validation 360).2.2.1 (by norm_num) (by norm_num)⟩

lemma tupleLe_refl (p : ℚ × ℕ) : tupleLe p p = true := by
  simp [tupleLe]

lemma tupleLe_trans : ∀ a b c : ℚ × ℕ,
    tupleLe a b = true → tupleLe b c = true → tupleLe a c = true := by
  intro a b c hab hbc
  simp only [tupleLe, decide_eq_true_eq] at hab hbc ⊢
  rcases hab with h | ⟨h1, h2⟩ <;> rcases hbc with g | ⟨g1, g2⟩
  · exact Or.inl (lt_trans h g)
  · exact Or.inl (g1 ▸ h)
  · exact Or.inl (h1 ▸ g)
  · exact Or.inr ⟨h1.trans g1, le_trans h2 g2⟩

lemma tupleLe_total : ∀ a b : ℚ × ℕ, (tupleLe a b || tupleLe b a) = true := by
  intro a b
  simp only [tupleLe, Bool.or_eq_true, decide_eq_true_eq]
  rcases lt_trichotomy a.1 b.1 with h | h | h
  · exact Or.inl (Or.inl h)
  · rcases le_total a.2 b.2 with h2 | h2
    · exact Or.inl (Or.inr ⟨h, h2⟩)
    · exact Or.inr (Or.inr ⟨h.symm, h2⟩)
  · exact Or.inr (Or.inl h)

lemma mergeSort_head_min (l : List (ℚ × ℕ)) (m : ℚ × ℕ)
    (h : (l.mergeSort tupleLe).head? = some m) :
    m ∈ l ∧ ∀ x ∈ l, tupleLe m x = true := by
  have hperm := List.mergeSort_perm l tupleLe
  have hsorted := List.sorted_mergeSort tupleLe_trans tupleLe_total l
  rcases hms : l.mergeSort tupleLe with _ | ⟨a, t⟩
  · rw [hms] at h
    exact Option.noConfusion h
  · rw [hms] at h
    simp only [List.head?_cons, Option.some.injEq] at h
    rw [h] at hms
    rw [hms] at hperm hsorted
    constructor
    · exact (List.Perm.mem_iff hperm).1 (List.mem_cons_self _ _)
    · intro x hx
      have hx' : x ∈ m :: t := (List.Perm.mem_iff hperm).2 hx
      rcases List.mem_cons.1 hx' with rfl | hx''
      · exact tupleLe_refl x
      · exact List.rel_of_pairwise_cons hsorted hx''

lemma tupleDistance_getElem {α : Type} (dist : α → ℚ) (frags : List α) (j : ℕ) (g : α)
    (h : frags[j]? = some g) : (dist g, j) ∈ tupleDistanceToLocationPt dist frags := by
  unfold tupleDistanceToLocationPt
  exact List.mem_map.2 ⟨(j, g), List.mem_enum_iff_getElem?.2 h, rfl⟩

lemma tupleDistance_mem {α : Type} (dist : α → ℚ) (frags : List α) (m : ℚ × ℕ)
    (h : m ∈ tupleDistanceToLocationPt dist frags) :
    ∃ g, frags[m.2]? = some g ∧ m.1 = dist g := by
  unfold tupleDistanceToLocationPt at h
  obtain ⟨⟨j, g⟩, hmem, heq⟩ := List.mem_map.1 h
  subst heq
  exact ⟨g, List.mem_enum_iff_getElem?.1 hmem, rfl⟩

lemma selectedFragment_first_min {α : Type} (dist : α → ℚ) (frags : List α)
    (hne : frags ≠ []) :
    ∃ i f, selectedFragment dist frags = some f ∧ frags[i]? = some f ∧
      (∀ g ∈ frags, dist f ≤ dist g) ∧
      (∀ (j : ℕ) (g : α), frags[j]? = some g → dist g ≤ dist f → i ≤ j) := by
  have hne2 : (tupleDistanceToLocationPt dist frags).mergeSort tupleLe ≠ [] := by
    intro hc
    have hlen := (List.mergeSort_perm (tupleDistanceToLocationPt dist frags) tupleLe).length_eq
    rw [hc] at hlen
    have : frags.length = 0 := by
      simpa [tupleDistanceToLocationPt] using hlen.symm
    exact hne (List.length_eq_zero.1 this)
  obtain ⟨m, hm⟩ : ∃ m,
      ((tupleDistanceToLocationPt dist frags).mergeSort tupleLe).head? = some m := by
    rcases hh : (tupleDistanceToLocationPt dist frags).mergeSort tupleLe with _ | ⟨a, t⟩
    · exact absurd hh hne2
    · exact ⟨a, rfl⟩
  obtain ⟨hmem, hmin⟩ := mergeSort_head_min _ _ hm
  obtain ⟨f, hf, hdf⟩ := tupleDistance_mem dist frags m hmem
  refine ⟨m.2, f, ?_, hf, ?_, ?_⟩
  · unfold selectedFragment
    rw [hm]
    exact hf
  · intro g hg
    obtain ⟨j, hj⟩ := List.mem_iff_getElem?.1 hg
    have ht := hmin (dist g, j) (tupleDistance_getElem dist frags j g hj)
    simp only [tupleLe, decide_eq_true_eq] at ht
    rcases ht with h | ⟨h1, -⟩
    · rw [← hdf]
      exact le_of_lt h
    · rw [← hdf, h1]
  · intro j g hj hle
    have ht := hmin (dist g, j) (tupleDistance_getElem dist frags j g hj)
    simp only [tupleLe, decide_eq_true_eq] at ht
    rcases ht with h | ⟨-, h2⟩
    · rw [← hdf] at hle
      exact absurd h (not_lt.2 hle)
    · exact h2

/-- C5 counterexample: under an exact distance tie the selected
fragment does depend on the enumeration order, so the claim's
unconditional order-independence is false: two fragments at equal
distance enumerated as 0, 1 select fragment 0, enumerated as 1, 0 they
select fragment 1. -/
theorem C5_tie_order_dependence_counterexample :
    selectedFragment (fun _ : ℕ => (1 : ℚ)) [0, 1] = some 0 ∧
    selectedFragment (fun _ : ℕ => (1 : ℚ)) [1, 0] = some 1 ∧
    ([0, 1] : List ℕ).Perm [1, 0] ∧ (some 0 : Option ℕ) ≠ some 1 := by
  refine ⟨?_, ?_, by decide, by decide⟩ <;>
    norm_num [selectedFragment, tupleDistanceToLocationPt, List.enum, List.enumFrom,
      List.mergeSort, tupleLe]

/-- C5 amended: after the split, the code keeps exactly the fragment
whose centroid distance to the location point is smallest, breaking
ties by the first-encountered enumeration index (the Python tuple sort
is lexicographic on distance then index); the selection is independent
of the order in which the fragments are enumerated whenever the
minimizing fragment is strictly unique (as in the specification's test
scenario, where the other fragments are strictly farther), while under
an exact tie it follows the enumeration order. -/
theorem C5_clip_fragment_selection (α : Type) (dist : α → ℚ) (frags frags2 : List α) :
    (frags ≠ [] → ∃ i f, selectedFragment dist frags = some f ∧ frags[i]? = some f ∧
      (∀ g ∈ frags, dist f ≤ dist g) ∧
      (∀ (j : ℕ) (g : α), frags[j]? = some g → dist g ≤ dist f → i ≤ j)) ∧
    (∀ f, f ∈ frags → (∀ g ∈ frags, g ≠ f → dist f < dist g) → frags.Perm frags2 →
      selectedFragment dist frags = some f ∧ selectedFragment dist frags2 = some f) := by
  constructor
  · exact selectedFragment_first_min dist frags
  · intro f hf hstrict hperm
    have key : ∀ l : List α, l.Perm frags → selectedFragment dist l = some f := by
      intro l hl
      have hfl : f ∈ l := (List.Perm.mem_iff hl).2 hf
      have hlne : l ≠ [] := by
        intro hc
        rw [hc] at hfl
        exact absurd hfl (List.not_mem_nil f)
      obtain ⟨i, g, hsel, hget, hmin, -⟩ := selectedFragment_first_min dist l hlne
      have hgl : g ∈ l := List.mem_iff_getElem?.2 ⟨i, hget⟩
      have hgfrags : g ∈ frags := (List.Perm.mem_iff hl).1 hgl
      by_cases hgf : g = f
      · rw [hgf] at hsel
        exact hsel
      · exact absurd (hstrict g hgfrags hgf) (not_lt.2 (hmin f hfl))
    exact ⟨key frags (List.Perm.refl frags), key frags2 hperm.symm⟩

/-- Witness for C5: three fragments with distances 5, 2, 9; the
fragment at distance 2 is selected under both enumeration orders. -/
theorem C5_clip_fragment_selection_witness :
    selectedFragment (fun n : ℕ => (n : ℚ)) [5, 2, 9] = some 2 ∧
    selectedFragment (fun n : ℕ => (n : ℚ)) [9, 5, 2] = some 2 := by
  refine (C5_clip_fragment_selection ℕ (fun n : ℕ => (n : ℚ)) [5, 2, 9] [9, 5, 2]).2
    2 (by decide) ?_ (by decide)
  intro g hg hne
  fin_cases hg
  · norm_num
  · exact absurd rfl hne
  · norm_num

/-- C8 counterexample: requesting numOfContours = 10 computes 9 slicing
planes, not 10 (the division with both ends excluded returns the 9
interior points), and the planes need not lie strictly between the
extent's ends: over the extent 0 to 3 with numOfContours = 2 the single
plane lies at height 4.5, above the maximum 3, because the arc-length
domain parameter 1.5 of the edge is fed into the normalized
Line.PointAt. -/
theorem C8_contour_count_counterexample :
    (contourPlanes 0 100 10).length = 9 ∧ (contourPlanes 0 100 10).length ≠ 10 ∧
    contourPlanes 0 3 2 = [9/2] ∧ (3 : ℚ) < 9/2 := by
  have h : (contourPlanes 0 100 10).length = 9 := by
    unfold contourPlanes
    rw [if_pos (by norm_num : (0 : ℕ) < 10)]
    simp only [elevationContourPlaneZs, divideByCountNoEnds, List.length_map,
      List.length_range]
  have h2 : contourPlanes 0 3 2 = [9/2] := by
    unfold contourPlanes
    rw [if_pos (by norm_num : (0 : ℕ) < 2)]
    unfold elevationContourPlaneZs divideByCountNoEnds
    norm_num [List.range_succ]
  exact ⟨h, by rw [h]; norm_num, h2, by norm_num⟩

/-- C8 amended: for numOfContours = N at least 1 the extractor places
N - 1 (not N) horizontal slicing planes at the evenly spaced heights
zmin + (i * L / N) * (zmax - zmin) for i = 1 .. N - 1, where
L = zmax - zmin is the vertical edge length: the division returns
arc-length domain parameters i * L / N and Line.PointAt treats them as
normalized, so the spacing carries an extra factor L.  The planes lie
strictly between the vertical extent's minimum and maximum whenever
0 < L and L is at most 1 local unit; for larger extents the upper
planes can exceed the maximum (see the counterexample).  For N = 0 no
planes are computed and the contour result is empty. -/
theorem C8_contour_planes (zmin zmax : ℚ) (n : ℕ) :
    contourPlanes zmin zmax 0 = [] ∧
    (0 < n → (contourPlanes zmin zmax n).length = n - 1) ∧
    (0 < n → ∀ i : ℕ, i < n - 1 →
      (contourPlanes zmin zmax n)[i]? =
        some (zmin + (((i : ℚ) + 1) * (zmax - zmin) / (n : ℚ)) * (zmax - zmin))) ∧
    (0 < n → 0 < zmax - zmin → zmax - zmin ≤ 1 →
      ∀ z ∈ contourPlanes zmin zmax n, zmin < z ∧ z < zmax) := by
  refine ⟨rfl, fun h => ?_, fun h i hi => ?_, fun h hz hz1 z hzmem => ?_⟩
  · simp only [contourPlanes, if_pos h, elevationContourPlaneZs, divideByCountNoEnds,
      List.length_map, List.length_range]
  · simp only [contourPlanes, if_pos h, elevationContourPlaneZs, divideByCountNoEnds,
      List.getElem?_map, List.getElem?_range hi, Option.map_some', Option.some.injEq]
    push_cast
    ring
  · simp only [contourPlanes, if_pos h, elevationContourPlaneZs, divideByCountNoEnds,
      List.mem_map, List.mem_range] at hzmem
    obtain ⟨t, ⟨i, hi, rfl⟩, rfl⟩ := hzmem
    have hn : (0 : ℚ) < (n : ℚ) := by exact_mod_cast h
    have hi1 : ((i + 1 : ℕ) : ℚ) < (n : ℚ) := by
      have hnat : i + 1 < n := by omega
      exact_mod_cast hnat
    have ht0 : (0 : ℚ) < ((i + 1 : ℕ) : ℚ) * (zmax - zmin) / (n : ℚ) :=
      div_pos (mul_pos (by exact_mod_cast Nat.succ_pos i) hz) hn
    have htL : ((i + 1 : ℕ) : ℚ) * (zmax - zmin) / (n : ℚ) < zmax - zmin := by
      rw [div_lt_iff₀ hn]
      calc ((i + 1 : ℕ) : ℚ) * (zmax - zmin)
          < (n : ℚ) * (zmax - zmin) := mul_lt_mul_of_pos_right hi1 hz
        _ = (zmax - zmin) * (n : ℚ) := by ring
    have ht1 : ((i + 1 : ℕ) : ℚ) * (zmax - zmin) / (n : ℚ) < 1 :=
      lt_of_lt_of_le htL hz1
    constructor
    · have hp := mul_pos ht0 hz
      linarith
    · have hp := mul_lt_of_lt_one_left hz ht1
      linarith

/-- Witness for C8: five requested contours over the unit extent 0 to 1
give the four planes 0.2, 0.4, 0.6, 0.8 - the plane at index 1 lies at
height 0.4, strictly inside the extent. -/
theorem C8_contour_planes_witness :
    (contourPlanes 0 1 5).length = 4 ∧
    (contourPlanes 0 1 5)[1]? = some (2/5) ∧
    ((0 : ℚ) < 2/5 ∧ (2/5 : ℚ) < 1) := by
  have h1 := (C8_contour_planes 0 1 5).2.1 (by norm_num)
  have h2 := (C8_contour_planes 0 1 5).2.2.1 (by norm_num) 1 (by norm_num)
  norm_num at h1 h2
  have hlist : contourPlanes 0 1 5 = [1/5, 2/5, 3/5, 4/5] := by
    unfold contourPlanes
    rw [if_pos (by norm_num : (0 : ℕ) < 5)]
    unfold elevationContourPlaneZs divideByCountNoEnds
    norm_num [List.range_succ]
  have h3 := (C8_contour_planes 0 1 5).2.2.2 (by norm_num) (by norm_num) (by norm_num)
    (2/5) (by rw [hlist]; norm_num)
  exact ⟨h1, h2, h3⟩

end Gismo
